import Mathlib

/-!
Verification of the Soccer-Player-Metrics ETL pipeline
(`src/data-eng-project.py`).

Part 1: the Event Aggregator (`process_event_data`). Event records are
JSON-like dynamic values; we embed the Python semantics the code relies on:
dictionary subscripting (raising on missing keys / non-dictionaries),
`dict.get` with a default (raising `AttributeError` on non-dictionaries),
and Python truthiness. A raised exception is modelled as `Option.none`
at the failing lookup; `process_event_data` catches every exception
per record and continues.

Part 2: the Staged Commit Loader (`main`, lines 151-187), modelled as a
transactional state machine over a two-table database.
-/

mutual
/-- A JSON-like dynamic value, the shape of one decoded event record. -/
inductive JVal where
  | null : JVal
  | bool : Bool → JVal
  | num : Int → JVal
  | str : String → JVal
  | arr : JItems → JVal
  | obj : JFields → JVal
deriving DecidableEq

inductive JItems where
  | nil : JItems
  | cons : JVal → JItems → JItems
deriving DecidableEq

inductive JFields where
  | nil : JFields
  | cons : String → JVal → JFields → JFields
deriving DecidableEq
end

/-- Key lookup in an object's field list (first match wins). -/
def objLookup : JFields → String → Option JVal
  | JFields.nil, _ => none
  | JFields.cons k v t, key => if k = key then some v else objLookup t key

/-- Python subscripting `v[key]` with a string key: succeeds only on a
dictionary that has the key; anything else raises (`KeyError`/`TypeError`),
modelled as `none`. -/
def subscript (v : JVal) (key : String) : Option JVal :=
  match v with
  | JVal.obj fs => objLookup fs key
  | _ => none

/-- Python `v.get(key, default)`: only dictionaries have `.get`; on any
other value this raises `AttributeError`, modelled as `none`. -/
def pyGet (v : JVal) (key : String) (dflt : JVal) : Option JVal :=
  match v with
  | JVal.obj fs => some ((objLookup fs key).getD dflt)
  | _ => none

/-- Python truthiness of a JSON value (`if not player_id`). -/
def truthy : JVal → Bool
  | JVal.null => false
  | JVal.bool b => b
  | JVal.num n => n != 0
  | JVal.str s => s != ""
  | JVal.arr JItems.nil => false
  | JVal.arr _ => true
  | JVal.obj JFields.nil => false
  | JVal.obj _ => true

/-- One value of the `offensive_metrics` defaultdict: the per-player entry.
`name` is an arbitrary JSON value because the code stores whatever
`event.get("player", {}).get("name")` returned (possibly `None`). -/
structure Metrics where
  name : JVal
  goals : Nat
  assists : Nat
  shots : Nat
  shots_on_target : Nat
  dribbles_completed : Nat
  key_passes : Nat
  crosses : Nat
deriving DecidableEq

/-- The defaultdict's default entry: `name = None`, every counter 0. -/
def defaultMetrics : Metrics :=
  { name := JVal.null, goals := 0, assists := 0, shots := 0,
    shots_on_target := 0, dribbles_completed := 0, key_passes := 0,
    crosses := 0 }

/-- The `offensive_metrics` table: an insertion-ordered association list
keyed by the player-id value, mirroring a Python dict. -/
abbrev Table := List (JVal × Metrics)

/-- Lookup of a key in the metrics table (no defaulting). -/
def lookupEntry : Table → JVal → Option Metrics
  | [], _ => none
  | (k, m) :: t, key => if k = key then some m else lookupEntry t key

/-- Reading `offensive_metrics[key]`: the defaultdict materialises
`defaultMetrics` for a missing key. -/
def getEntry (tbl : Table) (key : JVal) : Metrics :=
  (lookupEntry tbl key).getD defaultMetrics

/-- Store an entry: overwrite in place if the key exists, else append. -/
def setEntry : Table → JVal → Metrics → Table
  | [], key, m => [(key, m)]
  | (k, m0) :: t, key, m =>
      if k = key then (key, m) :: t else (k, m0) :: setEntry t key m

/-- `offensive_metrics[key][field] op= ...`: read (with defaulting),
transform, store back. -/
def modifyEntry (tbl : Table) (key : JVal) (f : Metrics → Metrics) : Table :=
  setEntry tbl key (f (getEntry tbl key))

def setName (tbl : Table) (key : JVal) (n : JVal) : Table :=
  modifyEntry tbl key (fun m => { m with name := n })

def incGoals (tbl : Table) (key : JVal) : Table :=
  modifyEntry tbl key (fun m => { m with goals := m.goals + 1 })

def incAssists (tbl : Table) (key : JVal) : Table :=
  modifyEntry tbl key (fun m => { m with assists := m.assists + 1 })

def incShots (tbl : Table) (key : JVal) : Table :=
  modifyEntry tbl key (fun m => { m with shots := m.shots + 1 })

def incSOT (tbl : Table) (key : JVal) : Table :=
  modifyEntry tbl key (fun m => { m with shots_on_target := m.shots_on_target + 1 })

def incDribbles (tbl : Table) (key : JVal) : Table :=
  modifyEntry tbl key (fun m => { m with dribbles_completed := m.dribbles_completed + 1 })

def incKeyPasses (tbl : Table) (key : JVal) : Table :=
  modifyEntry tbl key (fun m => { m with key_passes := m.key_passes + 1 })

def incCrosses (tbl : Table) (key : JVal) : Table :=
  modifyEntry tbl key (fun m => { m with crosses := m.crosses + 1 })

/-- The Shot branch (source lines 60-68). `shots` is incremented before the
outcome lookups, so a failing lookup (non-dictionary `shot`/`outcome`
payload) raises after the increment; the Boolean records whether the
branch raised. The outcome chain is evaluated twice in the source, but it
is pure, so a single evaluation feeding both conditions is faithful. -/
def shotStep (tbl : Table) (pid : JVal) (etype : JVal) (event : JVal) : Table × Bool :=
  if etype = JVal.str ("Shot") then
    let t := incShots tbl pid
    match pyGet event ("shot") (JVal.obj JFields.nil) with
    | none => (t, true)
    | some sv =>
      match pyGet sv ("outcome") (JVal.obj JFields.nil) with
      | none => (t, true)
      | some ov =>
        match pyGet ov ("name") JVal.null with
        | none => (t, true)
        | some w =>
          let t2 := if w = JVal.str ("Goal") then incGoals t pid else t
          let t3 := if w = JVal.str ("Goal") ∨ w = JVal.str ("Saved")
                    then incSOT t2 pid else t2
          (t3, false)
  else (tbl, false)

/-- The Pass branch (source lines 70-76): three independent truthiness
checks on `pass.goal_assist`, `pass.shot_assist`, `pass.cross`; a failing
lookup raises, keeping the increments already applied. -/
def passStep (tbl : Table) (pid : JVal) (etype : JVal) (event : JVal) : Table × Bool :=
  if etype = JVal.str ("Pass") then
    match pyGet event ("pass") (JVal.obj JFields.nil) with
    | none => (tbl, true)
    | some pv =>
      match pyGet pv ("goal_assist") JVal.null with
      | none => (tbl, true)
      | some ga =>
        let t1 := if truthy ga then incAssists tbl pid else tbl
        match pyGet pv ("shot_assist") JVal.null with
        | none => (t1, true)
        | some sa =>
          let t2 := if truthy sa then incKeyPasses t1 pid else t1
          match pyGet pv ("cross") JVal.null with
          | none => (t2, true)
          | some cr =>
            (if truthy cr then incCrosses t2 pid else t2, false)
  else (tbl, false)

/-- The Dribble branch (source lines 78-83). -/
def dribbleStep (tbl : Table) (pid : JVal) (etype : JVal) (event : JVal) : Table × Bool :=
  if etype = JVal.str ("Dribble") then
    match pyGet event ("dribble") (JVal.obj JFields.nil) with
    | none => (tbl, true)
    | some dv =>
      match pyGet dv ("outcome") (JVal.obj JFields.nil) with
      | none => (tbl, true)
      | some ov =>
        match pyGet ov ("name") JVal.null with
        | none => (tbl, true)
        | some w =>
          (if w = JVal.str ("Complete") then incDribbles tbl pid else tbl, false)
  else (tbl, false)

/-- One iteration of the `for event in file_data.json()` loop body
(source lines 50-88): the try-block, returning the table after the record
and whether the except-branch ran (`true` = an exception was caught and
the record was reported). In Python an exception aborts the rest of the
try-block; since `etype` matches at most one of the three branch guards,
running the remaining guarded branches (which are then no-ops) is
extensionally identical. -/
def processEventE (tbl : Table) (event : JVal) : Table × Bool :=
  match subscript event ("type") with
  | none => (tbl, true)
  | some tyObj =>
  match subscript tyObj ("name") with
  | none => (tbl, true)
  | some etype =>
  match pyGet event ("player") (JVal.obj JFields.nil) with
  | none => (tbl, true)
  | some pObj =>
  match pyGet pObj ("id") JVal.null with
  | none => (tbl, true)
  | some pid =>
  match pyGet pObj ("name") JVal.null with
  | none => (tbl, true)
  | some pname =>
  if truthy pid then
    let t1 := setName tbl pid pname
    let s2 := shotStep t1 pid etype event
    if s2.2 then (s2.1, true) else
    let s3 := passStep s2.1 pid etype event
    if s3.2 then (s3.1, true) else
    dribbleStep s3.1 pid etype event
  else (tbl, false)

/-- The table after one record (exceptions caught, per the source). -/
def processEvent (tbl : Table) (event : JVal) : Table :=
  (processEventE tbl event).1

/-- `process_event_data`: fold the loop body over the decoded record list,
also collecting the records whose processing raised (each such record is
printed together with the error — the observability sink). -/
def process_event_data (tbl : Table) : List JVal → Table × List JVal
  | [] => (tbl, [])
  | e :: rest =>
    let s := processEventE tbl e
    let r := process_event_data s.1 rest
    (r.1, (if s.2 then [e] else []) ++ r.2)

/-- The table component of `process_event_data`. -/
def processEvents (tbl : Table) (events : List JVal) : Table :=
  events.foldl processEvent tbl

/-- Parsed event header: `event["type"]["name"]`, as the source reads it. -/
def eventType (event : JVal) : Option JVal :=
  (subscript event ("type")).bind (fun tyObj => subscript tyObj ("name"))

/-- The value bound to `player_id` (line 52), provided the statements before
it did not raise: `some JVal.null` = the player or its id is absent. -/
def playerIdOf (event : JVal) : Option JVal :=
  (eventType event).bind (fun _ =>
    (pyGet event ("player") (JVal.obj JFields.nil)).bind (fun pObj =>
      pyGet pObj ("id") JVal.null))

/-- The player id the record actually mutates: the header parses and
`player_id` is truthy (the code's `if not player_id: continue`). -/
def touchedPid (event : JVal) : Option JVal :=
  (playerIdOf event).bind (fun pid => if truthy pid then some pid else none)

/-- `event.get("shot", {}).get("outcome", {}).get("name")` (lines 62, 64). -/
def shotOutcome (event : JVal) : Option JVal :=
  (pyGet event ("shot") (JVal.obj JFields.nil)).bind (fun sv =>
    (pyGet sv ("outcome") (JVal.obj JFields.nil)).bind (fun ov =>
      pyGet ov ("name") JVal.null))

/-- `event.get("dribble", {}).get("outcome", {}).get("name")` (line 80). -/
def dribbleOutcome (event : JVal) : Option JVal :=
  (pyGet event ("dribble") (JVal.obj JFields.nil)).bind (fun dv =>
    (pyGet dv ("outcome") (JVal.obj JFields.nil)).bind (fun ov =>
      pyGet ov ("name") JVal.null))

/-- The seven integer counters of an entry, as a vector. -/
structure Counters where
  goals : Nat
  assists : Nat
  shots : Nat
  shots_on_target : Nat
  dribbles_completed : Nat
  key_passes : Nat
  crosses : Nat
deriving DecidableEq

def zeroC : Counters := ⟨0, 0, 0, 0, 0, 0, 0⟩

def addC (a b : Counters) : Counters :=
  ⟨a.goals + b.goals, a.assists + b.assists, a.shots + b.shots,
   a.shots_on_target + b.shots_on_target,
   a.dribbles_completed + b.dribbles_completed,
   a.key_passes + b.key_passes, a.crosses + b.crosses⟩

def Metrics.counters (m : Metrics) : Counters :=
  ⟨m.goals, m.assists, m.shots, m.shots_on_target,
   m.dribbles_completed, m.key_passes, m.crosses⟩

/-- Counter increments a Shot branch applies to its player, a pure function
of the record: `shots` always (even when the outcome lookup then raises),
`goals` on a Goal outcome, `shots_on_target` on Goal or Saved. -/
def shotDelta (event : JVal) : Counters :=
  match shotOutcome event with
  | none => ⟨0, 0, 1, 0, 0, 0, 0⟩
  | some w =>
      ⟨(if w = JVal.str ("Goal") then 1 else 0), 0, 1,
       (if w = JVal.str ("Goal") ∨ w = JVal.str ("Saved") then 1 else 0),
       0, 0, 0⟩

/-- Counter increments a Pass branch applies: the three flags are
independent; a raising lookup keeps only the increments before it. -/
def passDelta (event : JVal) : Counters :=
  match pyGet event ("pass") (JVal.obj JFields.nil) with
  | none => zeroC
  | some pv =>
    match pyGet pv ("goal_assist") JVal.null with
    | none => zeroC
    | some ga =>
      let a := if truthy ga then 1 else 0
      match pyGet pv ("shot_assist") JVal.null with
      | none => ⟨0, a, 0, 0, 0, 0, 0⟩
      | some sa =>
        let kp := if truthy sa then 1 else 0
        match pyGet pv ("cross") JVal.null with
        | none => ⟨0, a, 0, 0, 0, kp, 0⟩
        | some cr => ⟨0, a, 0, 0, 0, kp, (if truthy cr then 1 else 0)⟩

/-- Counter increment a Dribble branch applies. -/
def dribbleDelta (event : JVal) : Counters :=
  match dribbleOutcome event with
  | none => zeroC
  | some w => if w = JVal.str ("Complete") then ⟨0, 0, 0, 0, 1, 0, 0⟩ else zeroC

/-- Counter increments one record applies to its (truthy) player id. -/
def eventDelta (etype event : JVal) : Counters :=
  addC (if etype = JVal.str ("Shot") then shotDelta event else zeroC)
    (addC (if etype = JVal.str ("Pass") then passDelta event else zeroC)
      (if etype = JVal.str ("Dribble") then dribbleDelta event else zeroC))

/-- Counter increments one record applies to the entry keyed `k`:
zero unless the record's parsed, truthy player id is `k`. -/
def deltas (event k : JVal) : Counters :=
  match eventType event, touchedPid event with
  | some etype, some pid => if pid = k then eventDelta etype event else zeroC
  | _, _ => zeroC

/-!
Part 2: the Staged Commit Loader (`main`, source lines 151-187).

The database holds the two relations; `none` = the table does not exist,
`some rows` = it exists with those rows. A connection tracks the last
committed state and the current (in-transaction) state; `commit` makes the
current state durable, `rollback` discards uncommitted work
(as `conn.rollback()` does, and as closing the connection without
committing does). Rows are opaque. The two failures external to the model
— the `COPY` bulk-load failing and the `::int` casts failing — enter as
Boolean parameters.
-/

/-- One row of the exported flat table (opaque to the loader). -/
abbrev Row := Nat

/-- The durable store: the staging and production relations. -/
structure DB where
  staging : Option (List Row)
  prod : Option (List Row)
deriving DecidableEq

inductive TableId where
  | staging : TableId
  | production : TableId
deriving DecidableEq

def getTable (d : DB) : TableId → Option (List Row)
  | TableId.staging => d.staging
  | TableId.production => d.prod

def setTable (d : DB) (t : TableId) (v : Option (List Row)) : DB :=
  match t with
  | TableId.staging => { d with staging := v }
  | TableId.production => { d with prod := v }

/-- `DROP TABLE IF EXISTS` (source lines 91-93). -/
def drop_table (d : DB) (t : TableId) : DB := setTable d t none

/-- `CREATE TABLE IF NOT EXISTS` with the loosely-typed columns
(source lines 96-102): creates an empty relation only when absent. -/
def create_table (d : DB) (t : TableId) : DB :=
  match getTable d t with
  | none => setTable d t (some [])
  | some _ => d

/-- The `COPY ... FROM csv` bulk-load into staging (lines 162-167):
appends the exported rows to the staging relation; fails (raises) when the
staging relation is absent or the bulk-load itself fails (`ok = false`). -/
def copyInto (ok : Bool) (rows : List Row) (d : DB) : Option DB :=
  match d.staging with
  | none => none
  | some s => if ok then some { d with staging := some (s ++ rows) } else none

/-- `insert_into_prod_table` (source lines 105-120):
`INSERT INTO prod SELECT ..::int.. FROM staging`. Fails (raises) when
either relation is absent or a cast fails (`castOk = false`); on success
appends staging's rows to production. -/
def insert_into_prod_table (castOk : Bool) (d : DB) : Option DB :=
  match d.staging, d.prod with
  | some s, some p =>
      if castOk then some { d with prod := some (p ++ s) } else none
  | _, _ => none

/-- A live connection: last committed state plus in-transaction state. -/
structure Conn where
  committed : DB
  cur : DB
deriving DecidableEq

def commitTx (c : Conn) : Conn := ⟨c.cur, c.cur⟩

def rollbackTx (c : Conn) : Conn := ⟨c.committed, c.committed⟩

/-- The loader body (`main`, lines 151-187), run over the initial durable
state `dbInit` (whatever the previous run left behind):
drop + create staging; try the bulk-load — on success drop + create
production and commit, on failure roll back; then (unconditionally, as in
the source: the second `try` block is a sibling of the first) try the
insert-and-cast — commit on success, roll back on failure. The returned
connection's `committed` component is what a later query observes, since
`conn.close()` discards any open transaction. -/
def runLoader (copyOk castOk : Bool) (rows : List Row) (dbInit : DB) : Conn :=
  let c0 : Conn := ⟨dbInit, dbInit⟩
  let c1 : Conn := ⟨c0.committed, drop_table c0.cur TableId.staging⟩
  let c2 : Conn := ⟨c1.committed, create_table c1.cur TableId.staging⟩
  let c3 : Conn :=
    match copyInto copyOk rows c2.cur with
    | some d =>
        let d1 := drop_table d TableId.production
        let d2 := create_table d1 TableId.production
        commitTx ⟨c2.committed, d2⟩
    | none => rollbackTx c2
  match insert_into_prod_table castOk c3.cur with
  | some d => commitTx ⟨c3.committed, d⟩
  | none => rollbackTx c3

/-! Sample event records used by the concrete witnesses. -/

/-- A Shot by player 1 ("A") with outcome Goal (the §8 scenario event). -/
def evShotGoal : JVal :=
  JVal.obj (JFields.cons ("type") (JVal.obj (JFields.cons ("name") (JVal.str ("Shot")) JFields.nil))
    (JFields.cons ("player") (JVal.obj (JFields.cons ("id") (JVal.num 1) (JFields.cons ("name") (JVal.str ("A")) JFields.nil)))
      (JFields.cons ("shot") (JVal.obj (JFields.cons ("outcome") (JVal.obj (JFields.cons ("name") (JVal.str ("Goal")) JFields.nil)) JFields.nil))
        JFields.nil)))

/-- A Shot by player 1 with outcome Saved. -/
def evShotSaved : JVal :=
  JVal.obj (JFields.cons ("type") (JVal.obj (JFields.cons ("name") (JVal.str ("Shot")) JFields.nil))
    (JFields.cons ("player") (JVal.obj (JFields.cons ("id") (JVal.num 1) JFields.nil))
      (JFields.cons ("shot") (JVal.obj (JFields.cons ("outcome") (JVal.obj (JFields.cons ("name") (JVal.str ("Saved")) JFields.nil)) JFields.nil))
        JFields.nil)))

/-- A Pass by player 1 with a truthy `goal_assist`. -/
def evPassGA : JVal :=
  JVal.obj (JFields.cons ("type") (JVal.obj (JFields.cons ("name") (JVal.str ("Pass")) JFields.nil))
    (JFields.cons ("player") (JVal.obj (JFields.cons ("id") (JVal.num 1) JFields.nil))
      (JFields.cons ("pass") (JVal.obj (JFields.cons ("goal_assist") (JVal.bool true) JFields.nil))
        JFields.nil)))

/-- A completed Dribble by player 2. -/
def evDribbleC : JVal :=
  JVal.obj (JFields.cons ("type") (JVal.obj (JFields.cons ("name") (JVal.str ("Dribble")) JFields.nil))
    (JFields.cons ("player") (JVal.obj (JFields.cons ("id") (JVal.num 2) JFields.nil))
      (JFields.cons ("dribble") (JVal.obj (JFields.cons ("outcome") (JVal.obj (JFields.cons ("name") (JVal.str ("Complete")) JFields.nil)) JFields.nil))
        JFields.nil)))

/-- A malformed Shot by player 3: the `shot` payload is a number, so
`.get("outcome")` raises `AttributeError` after `shots` was incremented. -/
def evShotBad : JVal :=
  JVal.obj (JFields.cons ("type") (JVal.obj (JFields.cons ("name") (JVal.str ("Shot")) JFields.nil))
    (JFields.cons ("player") (JVal.obj (JFields.cons ("id") (JVal.num 3) JFields.nil))
      (JFields.cons ("shot") (JVal.num 5) JFields.nil)))

/-- A Shot whose `player.id` is present but the falsy integer 0. -/
def evZeroId : JVal :=
  JVal.obj (JFields.cons ("type") (JVal.obj (JFields.cons ("name") (JVal.str ("Shot")) JFields.nil))
    (JFields.cons ("player") (JVal.obj (JFields.cons ("id") (JVal.num 0) JFields.nil))
      JFields.nil))

/-- An event with no `player` reference at all (e.g. a Half Start). -/
def evNoPlayer : JVal :=
  JVal.obj (JFields.cons ("type") (JVal.obj (JFields.cons ("name") (JVal.str ("Half Start")) JFields.nil))
    JFields.nil)

/-! Association-list and counter-algebra lemmas. -/

theorem lookupEntry_setEntry (tbl : Table) (key : JVal) (m : Metrics) (q : JVal) :
    lookupEntry (setEntry tbl key m) q =
      if key = q then some m else lookupEntry tbl q := by
  induction tbl with
  | nil => simp [setEntry, lookupEntry]
  | cons p t ih =>
      obtain ⟨k, m0⟩ := p
      by_cases hk : k = key
      · subst hk
        by_cases hq : k = q
        · subst hq
          simp [setEntry, lookupEntry]
        · simp [setEntry, lookupEntry, hq]
      · by_cases hq : k = q
        · subst hq
          have hkey : key ≠ k := fun h => hk h.symm
          simp [setEntry, hk, lookupEntry, hkey]
        · simp [setEntry, hk, lookupEntry, hq, ih]

theorem getEntry_modifyEntry (tbl : Table) (key : JVal) (f : Metrics → Metrics) (q : JVal) :
    getEntry (modifyEntry tbl key f) q =
      if key = q then f (getEntry tbl key) else getEntry tbl q := by
  by_cases h : key = q
  · subst h
    simp [getEntry, modifyEntry, lookupEntry_setEntry]
  · simp [getEntry, modifyEntry, lookupEntry_setEntry, h]

theorem lookupEntry_modifyEntry_ne (tbl : Table) (key : JVal) (f : Metrics → Metrics)
    (q : JVal) (h : key ≠ q) :
    lookupEntry (modifyEntry tbl key f) q = lookupEntry tbl q := by
  simp [modifyEntry, lookupEntry_setEntry, h]

theorem lookupEntry_modifyEntry_isSome (tbl : Table) (key : JVal) (f : Metrics → Metrics)
    (q : JVal) :
    (lookupEntry (modifyEntry tbl key f) q).isSome =
      ((lookupEntry tbl q).isSome || decide (key = q)) := by
  by_cases h : key = q
  · subst h
    simp [modifyEntry, lookupEntry_setEntry]
  · simp [modifyEntry, lookupEntry_setEntry, h]

theorem addC_zeroC (a : Counters) : addC a zeroC = a := by
  cases a
  simp [addC, zeroC]

theorem zeroC_addC (a : Counters) : addC zeroC a = a := by
  cases a
  simp [addC, zeroC]

theorem addC_assoc (a b c : Counters) : addC (addC a b) c = addC a (addC b c) := by
  simp [addC, Nat.add_assoc]

theorem counters_setName (tbl : Table) (pid n k : JVal) :
    (getEntry (setName tbl pid n) k).counters = (getEntry tbl k).counters := by
  rw [setName, getEntry_modifyEntry]
  by_cases hp : pid = k
  · subst hp
    simp [Metrics.counters]
  · simp [hp]

theorem counters_incGoals (tbl : Table) (pid k : JVal) :
    (getEntry (incGoals tbl pid) k).counters =
      addC (getEntry tbl k).counters
        (if pid = k then ⟨1, 0, 0, 0, 0, 0, 0⟩ else zeroC) := by
  rw [incGoals, getEntry_modifyEntry]
  by_cases hp : pid = k
  · subst hp
    simp [Metrics.counters, addC]
  · simp [hp, addC_zeroC]

theorem counters_incAssists (tbl : Table) (pid k : JVal) :
    (getEntry (incAssists tbl pid) k).counters =
      addC (getEntry tbl k).counters
        (if pid = k then ⟨0, 1, 0, 0, 0, 0, 0⟩ else zeroC) := by
  rw [incAssists, getEntry_modifyEntry]
  by_cases hp : pid = k
  · subst hp
    simp [Metrics.counters, addC]
  · simp [hp, addC_zeroC]

theorem counters_incShots (tbl : Table) (pid k : JVal) :
    (getEntry (incShots tbl pid) k).counters =
      addC (getEntry tbl k).counters
        (if pid = k then ⟨0, 0, 1, 0, 0, 0, 0⟩ else zeroC) := by
  rw [incShots, getEntry_modifyEntry]
  by_cases hp : pid = k
  · subst hp
    simp [Metrics.counters, addC]
  · simp [hp, addC_zeroC]

theorem counters_incSOT (tbl : Table) (pid k : JVal) :
    (getEntry (incSOT tbl pid) k).counters =
      addC (getEntry tbl k).counters
        (if pid = k then ⟨0, 0, 0, 1, 0, 0, 0⟩ else zeroC) := by
  rw [incSOT, getEntry_modifyEntry]
  by_cases hp : pid = k
  · subst hp
    simp [Metrics.counters, addC]
  · simp [hp, addC_zeroC]

theorem counters_incDribbles (tbl : Table) (pid k : JVal) :
    (getEntry (incDribbles tbl pid) k).counters =
      addC (getEntry tbl k).counters
        (if pid = k then ⟨0, 0, 0, 0, 1, 0, 0⟩ else zeroC) := by
  rw [incDribbles, getEntry_modifyEntry]
  by_cases hp : pid = k
  · subst hp
    simp [Metrics.counters, addC]
  · simp [hp, addC_zeroC]

theorem counters_incKeyPasses (tbl : Table) (pid k : JVal) :
    (getEntry (incKeyPasses tbl pid) k).counters =
      addC (getEntry tbl k).counters
        (if pid = k then ⟨0, 0, 0, 0, 0, 1, 0⟩ else zeroC) := by
  rw [incKeyPasses, getEntry_modifyEntry]
  by_cases hp : pid = k
  · subst hp
    simp [Metrics.counters, addC]
  · simp [hp, addC_zeroC]

theorem counters_incCrosses (tbl : Table) (pid k : JVal) :
    (getEntry (incCrosses tbl pid) k).counters =
      addC (getEntry tbl k).counters
        (if pid = k then ⟨0, 0, 0, 0, 0, 0, 1⟩ else zeroC) := by
  rw [incCrosses, getEntry_modifyEntry]
  by_cases hp : pid = k
  · subst hp
    simp [Metrics.counters, addC]
  · simp [hp, addC_zeroC]

theorem shotStep_counters (tbl : Table) (pid etype event k : JVal) :
    (getEntry (shotStep tbl pid etype event).1 k).counters =
      addC (getEntry tbl k).counters
        (if etype = JVal.str ("Shot") ∧ pid = k then shotDelta event else zeroC) := by
  by_cases he : etype = JVal.str ("Shot")
  · simp only [shotStep, if_pos he, he, true_and]
    cases h1 : pyGet event ("shot") (JVal.obj JFields.nil) with
    | none =>
        simp [shotDelta, shotOutcome, h1, counters_incShots]
    | some sv =>
      cases h2 : pyGet sv ("outcome") (JVal.obj JFields.nil) with
      | none => simp [shotDelta, shotOutcome, h1, h2, counters_incShots]
      | some ov =>
        cases h3 : pyGet ov ("name") JVal.null with
        | none => simp [shotDelta, shotOutcome, h1, h2, h3, counters_incShots]
        | some w =>
          by_cases hp : pid = k
          · subst hp
            by_cases hg : w = JVal.str ("Goal")
            · simp [shotDelta, shotOutcome, h1, h2, h3, hg, counters_incShots,
                    counters_incGoals, counters_incSOT, addC, zeroC]
            · by_cases hs : w = JVal.str ("Saved")
              · simp [shotDelta, shotOutcome, h1, h2, h3, hg, hs, counters_incShots,
                      counters_incGoals, counters_incSOT, addC, zeroC]
              · simp [shotDelta, shotOutcome, h1, h2, h3, hg, hs, counters_incShots,
                      counters_incGoals, counters_incSOT, addC, zeroC]
          · simp only [h2, h3, hp, and_false, if_false]
            split_ifs <;>
              simp [counters_incShots, counters_incGoals, counters_incSOT, hp, addC_zeroC]
  · simp [shotStep, he, addC_zeroC]

theorem passStep_counters (tbl : Table) (pid etype event k : JVal) :
    (getEntry (passStep tbl pid etype event).1 k).counters =
      addC (getEntry tbl k).counters
        (if etype = JVal.str ("Pass") ∧ pid = k then passDelta event else zeroC) := by
  by_cases he : etype = JVal.str ("Pass")
  · simp only [passStep, if_pos he, he, true_and]
    cases h1 : pyGet event ("pass") (JVal.obj JFields.nil) with
    | none => simp [passDelta, h1, ite_self, addC_zeroC]
    | some pv =>
      cases h2 : pyGet pv ("goal_assist") JVal.null with
      | none => simp [passDelta, h1, h2, ite_self, addC_zeroC]
      | some ga =>
        cases h3 : pyGet pv ("shot_assist") JVal.null with
        | none =>
            by_cases hp : pid = k
            · subst hp
              by_cases hga : truthy ga <;>
                simp [passDelta, h1, h2, h3, hga, counters_incAssists, addC, zeroC]
            · simp only [h2, h3, hp, and_false, if_false]
              split_ifs <;> simp [counters_incAssists, hp, addC_zeroC]
        | some sa =>
          cases h4 : pyGet pv ("cross") JVal.null with
          | none =>
              by_cases hp : pid = k
              · subst hp
                by_cases hga : truthy ga <;> by_cases hsa : truthy sa <;>
                  simp [passDelta, h1, h2, h3, h4, hga, hsa, counters_incAssists,
                        counters_incKeyPasses, addC, zeroC]
              · simp only [h2, h3, h4, hp, and_false, if_false]
                split_ifs <;>
                  simp [counters_incAssists, counters_incKeyPasses, hp, addC_zeroC]
          | some cr =>
              by_cases hp : pid = k
              · subst hp
                by_cases hga : truthy ga <;> by_cases hsa : truthy sa <;>
                  by_cases hcr : truthy cr <;>
                  simp [passDelta, h1, h2, h3, h4, hga, hsa, hcr, counters_incAssists,
                        counters_incKeyPasses, counters_incCrosses, addC, zeroC]
              · simp only [h2, h3, h4, hp, and_false, if_false]
                split_ifs <;>
                  simp [counters_incAssists, counters_incKeyPasses, counters_incCrosses,
                        hp, addC_zeroC]
  · simp [passStep, he, addC_zeroC]

theorem dribbleStep_counters (tbl : Table) (pid etype event k : JVal) :
    (getEntry (dribbleStep tbl pid etype event).1 k).counters =
      addC (getEntry tbl k).counters
        (if etype = JVal.str ("Dribble") ∧ pid = k then dribbleDelta event else zeroC) := by
  by_cases he : etype = JVal.str ("Dribble")
  · simp only [dribbleStep, if_pos he, he, true_and]
    cases h1 : pyGet event ("dribble") (JVal.obj JFields.nil) with
    | none => simp [dribbleDelta, dribbleOutcome, h1, ite_self, addC_zeroC]
    | some dv =>
      cases h2 : pyGet dv ("outcome") (JVal.obj JFields.nil) with
      | none => simp [dribbleDelta, dribbleOutcome, h1, h2, ite_self, addC_zeroC]
      | some ov =>
        cases h3 : pyGet ov ("name") JVal.null with
        | none => simp [dribbleDelta, dribbleOutcome, h1, h2, h3, ite_self, addC_zeroC]
        | some w =>
          by_cases hp : pid = k
          · subst hp
            by_cases hc : w = JVal.str ("Complete") <;>
              simp [dribbleDelta, dribbleOutcome, h1, h2, h3, hc,
                    counters_incDribbles, addC, zeroC]
          · simp only [h2, h3, hp, and_false, if_false]
            split_ifs <;> simp [counters_incDribbles, hp, addC_zeroC]
  · simp [dribbleStep, he, addC_zeroC]

theorem shotStep_err (tbl : Table) (pid etype event : JVal)
    (h : (shotStep tbl pid etype event).2 = true) : etype = JVal.str ("Shot") := by
  by_cases he : etype = JVal.str ("Shot")
  · exact he
  · simp [shotStep, he] at h

theorem passStep_err (tbl : Table) (pid etype event : JVal)
    (h : (passStep tbl pid etype event).2 = true) : etype = JVal.str ("Pass") := by
  by_cases he : etype = JVal.str ("Pass")
  · exact he
  · simp [passStep, he] at h

/-- A value on which one `.get` succeeded is a dictionary, so every other
`.get` on it succeeds too. -/
theorem pyGet_some_of_some (v : JVal) (k1 k2 : String) (d1 d2 x : JVal)
    (h : pyGet v k1 d1 = some x) : ∃ y, pyGet v k2 d2 = some y := by
  cases v <;> simp [pyGet] at h ⊢

/-- The table update a record applies, as a sum of per-branch deltas at the
record's own (truthy) player id: the central accounting lemma. -/
theorem processEvent_counters (tbl : Table) (event k : JVal) :
    (getEntry (processEvent tbl event) k).counters =
      addC (getEntry tbl k).counters (deltas event k) := by
  unfold processEvent processEventE
  cases h1 : subscript event ("type") with
  | none => simp [deltas, eventType, h1, addC_zeroC]
  | some tyObj =>
  cases h2 : subscript tyObj ("name") with
  | none => simp [deltas, eventType, h1, h2, addC_zeroC]
  | some etype =>
  cases h3 : pyGet event ("player") (JVal.obj JFields.nil) with
  | none => simp [deltas, eventType, touchedPid, playerIdOf, h1, h2, h3, addC_zeroC]
  | some pObj =>
  cases h4 : pyGet pObj ("id") JVal.null with
  | none => simp [deltas, eventType, touchedPid, playerIdOf, h1, h2, h3, h4, addC_zeroC]
  | some pid =>
  cases h5 : pyGet pObj ("name") JVal.null with
  | none =>
      rcases pyGet_some_of_some pObj ("id") ("name") JVal.null JVal.null pid h4 with ⟨y, hy⟩
      rw [hy] at h5
      cases h5
  | some pname =>
  by_cases ht : truthy pid
  · simp only [h5, ht, if_true]
    cases e2 : (shotStep (setName tbl pid pname) pid etype event).2 with
    | true =>
        have he := shotStep_err _ _ _ _ e2
        subst he
        by_cases hp : pid = k
        · subst hp
          simp [e2, shotStep_counters, counters_setName, deltas, eventType, touchedPid,
                playerIdOf, h1, h2, h3, h4, ht, eventDelta, addC_zeroC, zeroC_addC]
        · simp [e2, shotStep_counters, counters_setName, deltas, eventType, touchedPid,
                playerIdOf, h1, h2, h3, h4, ht, hp, eventDelta, addC_zeroC]
    | false =>
      cases e3 : (passStep (shotStep (setName tbl pid pname) pid etype event).1
          pid etype event).2 with
      | true =>
          have he := passStep_err _ _ _ _ e3
          subst he
          by_cases hp : pid = k
          · subst hp
            simp [e2, e3, passStep_counters, shotStep_counters, counters_setName, deltas,
                  eventType, touchedPid, playerIdOf, h1, h2, h3, h4, ht,
                  eventDelta, addC_zeroC, zeroC_addC]
          · simp [e2, e3, passStep_counters, shotStep_counters, counters_setName, deltas,
                  eventType, touchedPid, playerIdOf, h1, h2, h3, h4, ht, hp,
                  eventDelta, addC_zeroC]
      | false =>
          by_cases hp : pid = k
          · subst hp
            simp [e2, e3, dribbleStep_counters, passStep_counters, shotStep_counters,
                  counters_setName, deltas, eventType, touchedPid, playerIdOf,
                  h1, h2, h3, h4, ht, eventDelta, addC_zeroC, zeroC_addC, addC_assoc]
          · simp [e2, e3, dribbleStep_counters, passStep_counters, shotStep_counters,
                  counters_setName, deltas, eventType, touchedPid, playerIdOf,
                  h1, h2, h3, h4, ht, hp, eventDelta, addC_zeroC]
  · simp [deltas, eventType, touchedPid, playerIdOf, h1, h2, h3, h4, h5, ht, addC_zeroC]

theorem processEvents_cons (tbl : Table) (e : JVal) (es : List JVal) :
    processEvents tbl (e :: es) = processEvents (processEvent tbl e) es := rfl

theorem process_event_data_fst (tbl : Table) (es : List JVal) :
    (process_event_data tbl es).1 = processEvents tbl es := by
  induction es generalizing tbl with
  | nil => rfl
  | cons e es ih => simp [process_event_data, processEvents, processEvent, List.foldl_cons, ih]

theorem processEvents_counters (tbl : Table) (es : List JVal) (k : JVal) :
    (getEntry (processEvents tbl es) k).counters =
      List.foldl addC (getEntry tbl k).counters (es.map (fun e => deltas e k)) := by
  induction es generalizing tbl with
  | nil => rfl
  | cons e es ih =>
      simp only [processEvents, List.foldl_cons, List.map_cons]
      rw [← processEvent_counters]
      exact ih (processEvent tbl e)

theorem foldl_addC_goals (c : Counters) (l : List Counters) :
    (List.foldl addC c l).goals = c.goals + (l.map Counters.goals).sum := by
  induction l generalizing c with
  | nil => simp
  | cons d l ih => simp [List.foldl_cons, ih, addC, Nat.add_assoc]

theorem foldl_addC_assists (c : Counters) (l : List Counters) :
    (List.foldl addC c l).assists = c.assists + (l.map Counters.assists).sum := by
  induction l generalizing c with
  | nil => simp
  | cons d l ih => simp [List.foldl_cons, ih, addC, Nat.add_assoc]

theorem foldl_addC_shots (c : Counters) (l : List Counters) :
    (List.foldl addC c l).shots = c.shots + (l.map Counters.shots).sum := by
  induction l generalizing c with
  | nil => simp
  | cons d l ih => simp [List.foldl_cons, ih, addC, Nat.add_assoc]

theorem foldl_addC_sot (c : Counters) (l : List Counters) :
    (List.foldl addC c l).shots_on_target =
      c.shots_on_target + (l.map Counters.shots_on_target).sum := by
  induction l generalizing c with
  | nil => simp
  | cons d l ih => simp [List.foldl_cons, ih, addC, Nat.add_assoc]

theorem foldl_addC_dribbles (c : Counters) (l : List Counters) :
    (List.foldl addC c l).dribbles_completed =
      c.dribbles_completed + (l.map Counters.dribbles_completed).sum := by
  induction l generalizing c with
  | nil => simp
  | cons d l ih => simp [List.foldl_cons, ih, addC, Nat.add_assoc]

theorem foldl_addC_keypasses (c : Counters) (l : List Counters) :
    (List.foldl addC c l).key_passes = c.key_passes + (l.map Counters.key_passes).sum := by
  induction l generalizing c with
  | nil => simp
  | cons d l ih => simp [List.foldl_cons, ih, addC, Nat.add_assoc]

theorem foldl_addC_crosses (c : Counters) (l : List Counters) :
    (List.foldl addC c l).crosses = c.crosses + (l.map Counters.crosses).sum := by
  induction l generalizing c with
  | nil => simp
  | cons d l ih => simp [List.foldl_cons, ih, addC, Nat.add_assoc]

theorem counters_fields_ext (a b : Counters)
    (h1 : a.goals = b.goals) (h2 : a.assists = b.assists) (h3 : a.shots = b.shots)
    (h4 : a.shots_on_target = b.shots_on_target)
    (h5 : a.dribbles_completed = b.dribbles_completed)
    (h6 : a.key_passes = b.key_passes) (h7 : a.crosses = b.crosses) : a = b := by
  cases a
  cases b
  simp_all

theorem lookupEntry_setName_ne (tbl : Table) (pid n k : JVal) (h : pid ≠ k) :
    lookupEntry (setName tbl pid n) k = lookupEntry tbl k := by
  simp [setName, lookupEntry_modifyEntry_ne, h]

theorem lookupEntry_shotStep_ne (tbl : Table) (pid etype event k : JVal) (h : pid ≠ k) :
    lookupEntry (shotStep tbl pid etype event).1 k = lookupEntry tbl k := by
  by_cases he : etype = JVal.str ("Shot")
  · simp only [shotStep, if_pos he]
    cases h1 : pyGet event ("shot") (JVal.obj JFields.nil) with
    | none => simp [h1, incShots, lookupEntry_modifyEntry_ne, h]
    | some sv =>
      cases h2 : pyGet sv ("outcome") (JVal.obj JFields.nil) with
      | none => simp [h1, h2, incShots, lookupEntry_modifyEntry_ne, h]
      | some ov =>
        cases h3 : pyGet ov ("name") JVal.null with
        | none => simp [h1, h2, h3, incShots, lookupEntry_modifyEntry_ne, h]
        | some w =>
            simp only [h1, h2, h3]
            split_ifs <;>
              simp [incShots, incGoals, incSOT, lookupEntry_modifyEntry_ne, h]
  · simp [shotStep, he]

theorem lookupEntry_passStep_ne (tbl : Table) (pid etype event k : JVal) (h : pid ≠ k) :
    lookupEntry (passStep tbl pid etype event).1 k = lookupEntry tbl k := by
  by_cases he : etype = JVal.str ("Pass")
  · simp only [passStep, if_pos he]
    cases h1 : pyGet event ("pass") (JVal.obj JFields.nil) with
    | none => simp [h1]
    | some pv =>
      cases h2 : pyGet pv ("goal_assist") JVal.null with
      | none => simp [h1, h2]
      | some ga =>
        cases h3 : pyGet pv ("shot_assist") JVal.null with
        | none =>
            simp only [h1, h2, h3]
            split_ifs <;> simp [incAssists, lookupEntry_modifyEntry_ne, h]
        | some sa =>
          cases h4 : pyGet pv ("cross") JVal.null with
          | none =>
              simp only [h1, h2, h3, h4]
              split_ifs <;>
                simp [incAssists, incKeyPasses, lookupEntry_modifyEntry_ne, h]
          | some cr =>
              simp only [h1, h2, h3, h4]
              split_ifs <;>
                simp [incAssists, incKeyPasses, incCrosses,
                      lookupEntry_modifyEntry_ne, h]
  · simp [passStep, he]

theorem lookupEntry_dribbleStep_ne (tbl : Table) (pid etype event k : JVal) (h : pid ≠ k) :
    lookupEntry (dribbleStep tbl pid etype event).1 k = lookupEntry tbl k := by
  by_cases he : etype = JVal.str ("Dribble")
  · simp only [dribbleStep, if_pos he]
    cases h1 : pyGet event ("dribble") (JVal.obj JFields.nil) with
    | none => simp [h1]
    | some dv =>
      cases h2 : pyGet dv ("outcome") (JVal.obj JFields.nil) with
      | none => simp [h1, h2]
      | some ov =>
        cases h3 : pyGet ov ("name") JVal.null with
        | none => simp [h1, h2, h3]
        | some w =>
            simp only [h1, h2, h3]
            split_ifs <;> simp [incDribbles, lookupEntry_modifyEntry_ne, h]
  · simp [dribbleStep, he]

/-- A record never touches the entry of a key other than its own parsed,
truthy player id. -/
theorem lookupEntry_processEvent_other (tbl : Table) (event k : JVal)
    (h : touchedPid event ≠ some k) :
    lookupEntry (processEvent tbl event) k = lookupEntry tbl k := by
  unfold processEvent processEventE
  cases h1 : subscript event ("type") with
  | none => simp [h1]
  | some tyObj =>
  cases h2 : subscript tyObj ("name") with
  | none => simp [h1, h2]
  | some etype =>
  cases h3 : pyGet event ("player") (JVal.obj JFields.nil) with
  | none => simp [h1, h2, h3]
  | some pObj =>
  cases h4 : pyGet pObj ("id") JVal.null with
  | none => simp [h1, h2, h3, h4]
  | some pid =>
  cases h5 : pyGet pObj ("name") JVal.null with
  | none => simp [h1, h2, h3, h4, h5]
  | some pname =>
  by_cases ht : truthy pid
  · have hpk : pid ≠ k := by
      intro hh
      subst hh
      exact h (by simp [touchedPid, playerIdOf, eventType, h1, h2, h3, h4, ht])
    simp only [h1, h2, h3, h4, h5, ht, if_true]
    cases e2 : (shotStep (setName tbl pid pname) pid etype event).2 with
    | true =>
        simp [e2, lookupEntry_shotStep_ne, lookupEntry_setName_ne, hpk]
    | false =>
      cases e3 : (passStep (shotStep (setName tbl pid pname) pid etype event).1
          pid etype event).2 with
      | true =>
          simp [e2, e3, lookupEntry_passStep_ne, lookupEntry_shotStep_ne,
                lookupEntry_setName_ne, hpk]
      | false =>
          simp [e2, e3, lookupEntry_dribbleStep_ne, lookupEntry_passStep_ne,
                lookupEntry_shotStep_ne, lookupEntry_setName_ne, hpk]
  · simp [h1, h2, h3, h4, h5, ht]

theorem touchedPid_truthy (event pid : JVal) (h : touchedPid event = some pid) :
    truthy pid = true := by
  unfold touchedPid at h
  cases hp : playerIdOf event with
  | none => rw [hp] at h; cases h
  | some q =>
      rw [hp] at h
      by_cases ht : truthy q
      · simp [ht] at h
        rw [← h]
        exact ht
      · simp [ht] at h

theorem deltas_untouched (event k : JVal) (h : touchedPid event ≠ some k) :
    deltas event k = zeroC := by
  unfold deltas
  cases he : eventType event with
  | none => simp
  | some ety =>
    cases htp : touchedPid event with
    | none => simp
    | some pid =>
        have hpk : pid ≠ k := fun hh => h (hh ▸ htp)
        simp [hpk]

theorem lookupEntry_processEvents_untruthy (tbl : Table) (es : List JVal) (k : JVal)
    (h : truthy k = false) :
    lookupEntry (processEvents tbl es) k = lookupEntry tbl k := by
  induction es generalizing tbl with
  | nil => rfl
  | cons e es ih =>
      rw [processEvents_cons, ih, lookupEntry_processEvent_other]
      intro hc
      have := touchedPid_truthy _ _ hc
      rw [h] at this
      cases this

/-- Skipped record: the header parsed, `player_id` is falsy, so the loop
body does nothing and raises nothing (`continue` at line 56). -/
theorem processEventE_skip (tbl : Table) (event pid : JVal)
    (hpid : playerIdOf event = some pid) (ht : truthy pid = false) :
    processEventE tbl event = (tbl, false) := by
  unfold processEventE
  cases h1 : subscript event ("type") with
  | none => simp [playerIdOf, eventType, h1] at hpid
  | some tyObj =>
  cases h2 : subscript tyObj ("name") with
  | none => simp [playerIdOf, eventType, h1, h2] at hpid
  | some etype =>
  cases h3 : pyGet event ("player") (JVal.obj JFields.nil) with
  | none => simp [playerIdOf, eventType, h1, h2, h3] at hpid
  | some pObj =>
  cases h4 : pyGet pObj ("id") JVal.null with
  | none => simp [playerIdOf, eventType, h1, h2, h3, h4] at hpid
  | some pid2 =>
  have hp2 : pid2 = pid := by
    simp [playerIdOf, eventType, h1, h2, h3, h4] at hpid
    exact hpid
  subst hp2
  cases h5 : pyGet pObj ("name") JVal.null with
  | none =>
      rcases pyGet_some_of_some pObj ("id") ("name") JVal.null JVal.null _ h4 with ⟨y, hy⟩
      rw [hy] at h5
      cases h5
  | some pname => simp [h1, h2, h3, h4, h5, ht]

theorem isSome_mono_modifyEntry (tbl : Table) (key : JVal) (f : Metrics → Metrics)
    (q : JVal) (h : (lookupEntry tbl q).isSome = true) :
    (lookupEntry (modifyEntry tbl key f) q).isSome = true := by
  simp [lookupEntry_modifyEntry_isSome, h]

theorem isSome_mono_shotStep (tbl : Table) (pid etype event q : JVal)
    (h : (lookupEntry tbl q).isSome = true) :
    (lookupEntry (shotStep tbl pid etype event).1 q).isSome = true := by
  by_cases he : etype = JVal.str ("Shot")
  · simp only [shotStep, if_pos he]
    cases h1 : pyGet event ("shot") (JVal.obj JFields.nil) with
    | none => simp [h1, incShots, lookupEntry_modifyEntry_isSome, h]
    | some sv =>
      cases h2 : pyGet sv ("outcome") (JVal.obj JFields.nil) with
      | none => simp [h1, h2, incShots, lookupEntry_modifyEntry_isSome, h]
      | some ov =>
        cases h3 : pyGet ov ("name") JVal.null with
        | none => simp [h1, h2, h3, incShots, lookupEntry_modifyEntry_isSome, h]
        | some w =>
            simp only [h1, h2, h3]
            split_ifs <;>
              simp [incShots, incGoals, incSOT, lookupEntry_modifyEntry_isSome, h]
  · simp [shotStep, he, h]

theorem isSome_mono_passStep (tbl : Table) (pid etype event q : JVal)
    (h : (lookupEntry tbl q).isSome = true) :
    (lookupEntry (passStep tbl pid etype event).1 q).isSome = true := by
  by_cases he : etype = JVal.str ("Pass")
  · simp only [passStep, if_pos he]
    cases h1 : pyGet event ("pass") (JVal.obj JFields.nil) with
    | none => simp [h1, h]
    | some pv =>
      cases h2 : pyGet pv ("goal_assist") JVal.null with
      | none => simp [h1, h2, h]
      | some ga =>
        cases h3 : pyGet pv ("shot_assist") JVal.null with
        | none =>
            simp only [h1, h2, h3]
            split_ifs <;> simp [incAssists, lookupEntry_modifyEntry_isSome, h]
        | some sa =>
          cases h4 : pyGet pv ("cross") JVal.null with
          | none =>
              simp only [h1, h2, h3, h4]
              split_ifs <;>
                simp [incAssists, incKeyPasses, lookupEntry_modifyEntry_isSome, h]
          | some cr =>
              simp only [h1, h2, h3, h4]
              split_ifs <;>
                simp [incAssists, incKeyPasses, incCrosses,
                      lookupEntry_modifyEntry_isSome, h]
  · simp [passStep, he, h]

theorem isSome_mono_dribbleStep (tbl : Table) (pid etype event q : JVal)
    (h : (lookupEntry tbl q).isSome = true) :
    (lookupEntry (dribbleStep tbl pid etype event).1 q).isSome = true := by
  by_cases he : etype = JVal.str ("Dribble")
  · simp only [dribbleStep, if_pos he]
    cases h1 : pyGet event ("dribble") (JVal.obj JFields.nil) with
    | none => simp [h1, h]
    | some dv =>
      cases h2 : pyGet dv ("outcome") (JVal.obj JFields.nil) with
      | none => simp [h1, h2, h]
      | some ov =>
        cases h3 : pyGet ov ("name") JVal.null with
        | none => simp [h1, h2, h3, h]
        | some w =>
            simp only [h1, h2, h3]
            split_ifs <;> simp [incDribbles, lookupEntry_modifyEntry_isSome, h]
  · simp [dribbleStep, he, h]

/-- A record whose parsed, truthy player id is `q` creates (or keeps) the
entry keyed `q`. -/
theorem processEvent_creates (tbl : Table) (event q : JVal)
    (h : touchedPid event = some q) :
    (lookupEntry (processEvent tbl event) q).isSome = true := by
  unfold processEvent processEventE
  cases h1 : subscript event ("type") with
  | none => simp [touchedPid, playerIdOf, eventType, h1] at h
  | some tyObj =>
  cases h2 : subscript tyObj ("name") with
  | none => simp [touchedPid, playerIdOf, eventType, h1, h2] at h
  | some etype =>
  cases h3 : pyGet event ("player") (JVal.obj JFields.nil) with
  | none => simp [touchedPid, playerIdOf, eventType, h1, h2, h3] at h
  | some pObj =>
  cases h4 : pyGet pObj ("id") JVal.null with
  | none => simp [touchedPid, playerIdOf, eventType, h1, h2, h3, h4] at h
  | some pid =>
  by_cases ht : truthy pid
  · have hpq : pid = q := by
      simp [touchedPid, playerIdOf, eventType, h1, h2, h3, h4, ht] at h
      exact h
    subst hpq
    cases h5 : pyGet pObj ("name") JVal.null with
    | none =>
        rcases pyGet_some_of_some pObj ("id") ("name") JVal.null JVal.null _ h4 with ⟨y, hy⟩
        rw [hy] at h5
        cases h5
    | some pname =>
        have hsn : (lookupEntry (setName tbl pid pname) pid).isSome = true := by
          simp [setName, modifyEntry, lookupEntry_setEntry]
        simp only [h1, h2, h3, h4, h5, ht, if_true]
        cases e2 : (shotStep (setName tbl pid pname) pid etype event).2 with
        | true =>
            simp only [e2, if_true]
            exact isSome_mono_shotStep _ _ _ _ _ hsn
        | false =>
          cases e3 : (passStep (shotStep (setName tbl pid pname) pid etype event).1
              pid etype event).2 with
          | true =>
              simp only [e2, e3, Bool.false_eq_true, if_false, if_true]
              exact isSome_mono_passStep _ _ _ _ _ (isSome_mono_shotStep _ _ _ _ _ hsn)
          | false =>
              simp only [e2, e3, Bool.false_eq_true, if_false]
              exact isSome_mono_dribbleStep _ _ _ _ _
                (isSome_mono_passStep _ _ _ _ _ (isSome_mono_shotStep _ _ _ _ _ hsn))
  · simp [touchedPid, playerIdOf, eventType, h1, h2, h3, h4, ht] at h

/-- Entry presence after one record: the old presence, or the record's own
touched player id. -/
theorem isSome_processEvent (tbl : Table) (event q : JVal) :
    (lookupEntry (processEvent tbl event) q).isSome =
      ((lookupEntry tbl q).isSome || decide (touchedPid event = some q)) := by
  by_cases hq : touchedPid event = some q
  · simp [hq, processEvent_creates tbl event q hq]
  · simp [hq, lookupEntry_processEvent_other tbl event q hq]

/-- Entry presence after a batch. -/
theorem isSome_processEvents (tbl : Table) (es : List JVal) (q : JVal) :
    (lookupEntry (processEvents tbl es) q).isSome =
      ((lookupEntry tbl q).isSome ||
        es.any (fun e => decide (touchedPid e = some q))) := by
  induction es generalizing tbl with
  | nil => simp [processEvents]
  | cons e es ih =>
      rw [processEvents_cons, ih, isSome_processEvent]
      simp [Bool.or_assoc]

theorem perm_any {α : Type} (l1 l2 : List α) (h : l1.Perm l2) (f : α → Bool) :
    l1.any f = l2.any f := by
  cases hb : l2.any f
  · rw [List.any_eq_false] at hb ⊢
    intro x hx
    exact hb x (h.mem_iff.mp hx)
  · rw [List.any_eq_true] at hb ⊢
    rcases hb with ⟨x, hx, hfx⟩
    exact ⟨x, h.mem_iff.mpr hx, hfx⟩

theorem foldl_addC_shift (c : Counters) (l : List Counters) :
    List.foldl addC c l = addC c (List.foldl addC zeroC l) := by
  apply counters_fields_ext <;>
    simp [foldl_addC_goals, foldl_addC_assists, foldl_addC_shots, foldl_addC_sot,
          foldl_addC_dribbles, foldl_addC_keypasses, foldl_addC_crosses, addC, zeroC]

theorem shotStep_err_none (tbl : Table) (pid event : JVal)
    (hout : shotOutcome event = none) :
    (shotStep tbl pid (JVal.str ("Shot")) event).2 = true := by
  simp only [shotStep, if_pos rfl]
  cases g1 : pyGet event ("shot") (JVal.obj JFields.nil) with
  | none => simp [g1]
  | some sv =>
    cases g2 : pyGet sv ("outcome") (JVal.obj JFields.nil) with
    | none => simp [g1, g2]
    | some ov =>
      cases g3 : pyGet ov ("name") JVal.null with
      | none => simp [g1, g2, g3]
      | some w => simp [shotOutcome, g1, g2, g3] at hout

theorem processEventE_shot_err (tbl : Table) (event pid : JVal)
    (hty : eventType event = some (JVal.str ("Shot")))
    (hpid : touchedPid event = some pid)
    (hout : shotOutcome event = none) :
    (processEventE tbl event).2 = true := by
  unfold processEventE
  cases h1 : subscript event ("type") with
  | none => simp [eventType, h1] at hty
  | some tyObj =>
  cases h2 : subscript tyObj ("name") with
  | none => simp [eventType, h1, h2] at hty
  | some etype =>
  have hety : etype = JVal.str ("Shot") := by
    simp [eventType, h1, h2] at hty
    exact hty
  subst hety
  cases h3 : pyGet event ("player") (JVal.obj JFields.nil) with
  | none => simp [touchedPid, playerIdOf, eventType, h1, h2, h3] at hpid
  | some pObj =>
  cases h4 : pyGet pObj ("id") JVal.null with
  | none => simp [touchedPid, playerIdOf, eventType, h1, h2, h3, h4] at hpid
  | some pid2 =>
  by_cases ht : truthy pid2
  · cases h5 : pyGet pObj ("name") JVal.null with
    | none =>
        rcases pyGet_some_of_some pObj ("id") ("name") JVal.null JVal.null _ h4 with ⟨y, hy⟩
        rw [hy] at h5
        cases h5
    | some pname =>
        simp [h1, h2, h3, h4, h5, ht, shotStep_err_none _ _ _ hout]
  · simp [touchedPid, playerIdOf, eventType, h1, h2, h3, h4, ht] at hpid

/-!
The claim theorems.
-/

/-- Claim C1: the spec says a failed bulk-load aborts Phase 1, rolls back,
and Phase 2 is not attempted, leaving production untouched. The code
violates this: the second try-block (the insert into production) is a
sibling of the first, so after the rollback it still runs. Evaluated at
the failing input where the previous run left staging `[5]` and
production `[6]` committed: the insert succeeds against the stale tables
and commits, so production becomes `[6, 5]` — changed, not untouched. -/
theorem staging_failure_insert_still_runs :
    (runLoader false true [7] ⟨some [5], some [6]⟩).committed =
      ⟨some [5], some [6, 5]⟩ ∧
    (runLoader false true [7] ⟨some [5], some [6]⟩).committed.prod ≠
      (⟨some [5], some [6]⟩ : DB).prod := by
  decide

/-- Claim C2 counterexample: with previous production `[6]`, a successful
copy of `[7]` and a failing insert-and-cast, the committed production is
an existing, empty table — not the previous contents and not absent, the
two outcomes the claim allows — because the drop/create of production was
committed together with the staging write before the insert. -/
theorem promotion_failure_empty_production_cex :
    (runLoader true false [7] ⟨some [5], some [6]⟩).committed.prod = some [] ∧
    (runLoader true false [7] ⟨some [5], some [6]⟩).committed.prod ≠ some [6] ∧
    (runLoader true false [7] ⟨some [5], some [6]⟩).committed.prod ≠ none ∧
    (runLoader true false [7] ⟨some [5], some [6]⟩).committed.staging = some [7] := by
  decide

/-- Claim C2 (amended): when the insert-and-cast fails, the rollback
undoes only the insert. The drop and create of the production table were
already committed together with the staging write, so afterwards staging
holds the new rows as committed and production exists as an empty table
(zero rows) — the previous run's production contents are gone. -/
theorem promotion_failure_state (rows : List Row) (dbInit : DB) :
    (runLoader true false rows dbInit).committed = ⟨some rows, some []⟩ := by
  simp [runLoader, drop_table, create_table, getTable, setTable, copyInto,
        insert_into_prod_table, commitTx, rollbackTx]

/-- Claim C3: for every Shot event whose player id is present (parsed and
truthy, the code's `if not player_id` notion of presence), `shots`
increments by exactly 1; `goals` increments by exactly 1 iff the outcome
name is Goal; `shots_on_target` increments by exactly 1 iff the outcome
name is Goal or Saved (so a Saved outcome raises only `shots_on_target`,
and any other outcome raises neither). -/
theorem shot_event_counter_effects (tbl : Table) (event pid : JVal)
    (hty : eventType event = some (JVal.str ("Shot")))
    (hpid : touchedPid event = some pid) :
    (getEntry (processEvent tbl event) pid).shots = (getEntry tbl pid).shots + 1 ∧
    (getEntry (processEvent tbl event) pid).goals = (getEntry tbl pid).goals +
      (if shotOutcome event = some (JVal.str ("Goal")) then 1 else 0) ∧
    (getEntry (processEvent tbl event) pid).shots_on_target =
      (getEntry tbl pid).shots_on_target +
      (if shotOutcome event = some (JVal.str ("Goal")) ∨
          shotOutcome event = some (JVal.str ("Saved")) then 1 else 0) := by
  have hc := processEvent_counters tbl event pid
  have hd : deltas event pid = shotDelta event := by
    simp [deltas, hty, hpid, eventDelta, addC_zeroC]
  rw [hd] at hc
  cases ho : shotOutcome event with
  | none =>
      simp only [shotDelta, ho] at hc
      refine ⟨?_, ?_, ?_⟩
      · have h1 := congrArg Counters.shots hc
        simpa [Metrics.counters, addC] using h1
      · have h1 := congrArg Counters.goals hc
        simpa [Metrics.counters, addC, ho] using h1
      · have h1 := congrArg Counters.shots_on_target hc
        simpa [Metrics.counters, addC, ho] using h1
  | some w =>
      simp only [shotDelta, ho] at hc
      refine ⟨?_, ?_, ?_⟩
      · have h1 := congrArg Counters.shots hc
        simpa [Metrics.counters, addC] using h1
      · have h1 := congrArg Counters.goals hc
        simpa [Metrics.counters, addC, ho] using h1
      · have h1 := congrArg Counters.shots_on_target hc
        simpa [Metrics.counters, addC, ho] using h1

/-- Concrete check of C3: the Goal shot by player 1 and the Saved shot. -/
theorem shot_event_counter_effects_witness :
    (eventType evShotGoal = some (JVal.str ("Shot")) ∧
     touchedPid evShotGoal = some (JVal.num 1) ∧
     (getEntry (processEvent [] evShotGoal) (JVal.num 1)).shots =
       (getEntry [] (JVal.num 1)).shots + 1 ∧
     (getEntry (processEvent [] evShotGoal) (JVal.num 1)).goals =
       (getEntry [] (JVal.num 1)).goals +
       (if shotOutcome evShotGoal = some (JVal.str ("Goal")) then 1 else 0)) ∧
    (getEntry (processEvent [] evShotSaved) (JVal.num 1)).shots_on_target =
      (getEntry [] (JVal.num 1)).shots_on_target +
      (if shotOutcome evShotSaved = some (JVal.str ("Goal")) ∨
          shotOutcome evShotSaved = some (JVal.str ("Saved")) then 1 else 0) :=
  ⟨⟨by decide, by decide,
    (shot_event_counter_effects [] evShotGoal (JVal.num 1) (by decide) (by decide)).1,
    (shot_event_counter_effects [] evShotGoal (JVal.num 1) (by decide) (by decide)).2.1⟩,
   (shot_event_counter_effects [] evShotSaved (JVal.num 1) (by decide) (by decide)).2.2⟩

/-- Claim C4: a record whose `player.id` is absent (the `.get` chain
returns `None`) is skipped without mutating the table and without
raising, and no entry keyed by the null id ever appears in the output. -/
theorem absent_player_id_skipped (tbl : Table) (event : JVal) (es : List JVal)
    (h : playerIdOf event = some JVal.null) :
    processEventE tbl event = (tbl, false) ∧
    (lookupEntry tbl JVal.null = none →
      lookupEntry (processEvents tbl es) JVal.null = none) := by
  refine ⟨processEventE_skip tbl event JVal.null h rfl, ?_⟩
  intro h0
  rw [lookupEntry_processEvents_untruthy tbl es JVal.null rfl]
  exact h0

/-- Concrete check of C4 on the player-less event. -/
theorem absent_player_id_skipped_witness :
    playerIdOf evNoPlayer = some JVal.null ∧
    processEventE [] evNoPlayer = ([], false) ∧
    lookupEntry (processEvents [] [evNoPlayer]) JVal.null = none :=
  ⟨by decide,
   (absent_player_id_skipped [] evNoPlayer [evNoPlayer] (by decide)).1,
   (absent_player_id_skipped [] evNoPlayer [evNoPlayer] (by decide)).2 rfl⟩

/-- Claim C5: permuting the event sequence leaves every player's counter
values unchanged, and also which players have an entry; only `name` can
differ (last-write-wins), which the claim allows. -/
theorem aggregation_order_independent (tbl : Table) (es1 es2 : List JVal)
    (h : es1.Perm es2) (k : JVal) :
    (getEntry (processEvents tbl es1) k).counters =
      (getEntry (processEvents tbl es2) k).counters ∧
    (lookupEntry (processEvents tbl es1) k).isSome =
      (lookupEntry (processEvents tbl es2) k).isSome := by
  constructor
  · rw [processEvents_counters, processEvents_counters]
    have hsum : ∀ g : JVal → Nat, (es1.map g).sum = (es2.map g).sum :=
      fun g => List.Perm.sum_eq (h.map g)
    apply counters_fields_ext
    · rw [foldl_addC_goals, foldl_addC_goals, List.map_map, List.map_map, hsum]
    · rw [foldl_addC_assists, foldl_addC_assists, List.map_map, List.map_map, hsum]
    · rw [foldl_addC_shots, foldl_addC_shots, List.map_map, List.map_map, hsum]
    · rw [foldl_addC_sot, foldl_addC_sot, List.map_map, List.map_map, hsum]
    · rw [foldl_addC_dribbles, foldl_addC_dribbles, List.map_map, List.map_map, hsum]
    · rw [foldl_addC_keypasses, foldl_addC_keypasses, List.map_map, List.map_map, hsum]
    · rw [foldl_addC_crosses, foldl_addC_crosses, List.map_map, List.map_map, hsum]
  · rw [isSome_processEvents, isSome_processEvents, perm_any _ _ h]

/-- Concrete check of C5 on a two-event swap. -/
theorem aggregation_order_independent_witness :
    ([evShotGoal, evPassGA].Perm [evPassGA, evShotGoal]) ∧
    (getEntry (processEvents [] [evShotGoal, evPassGA]) (JVal.num 1)).counters =
      (getEntry (processEvents [] [evPassGA, evShotGoal]) (JVal.num 1)).counters :=
  ⟨List.Perm.swap evPassGA evShotGoal [],
   (aggregation_order_independent [] [evShotGoal, evPassGA] [evPassGA, evShotGoal]
      (List.Perm.swap evPassGA evShotGoal []) (JVal.num 1)).1⟩

/-- Claim C6: a record whose processing raises is caught: the batch
continues with the remaining records, the record is reported to the
error sink, and the counters of every key other than the record's own
player are unchanged. -/
theorem malformed_record_recovered (tbl : Table) (event : JVal) (es : List JVal)
    (k : JVal)
    (herr : (processEventE tbl event).2 = true)
    (hk : touchedPid event ≠ some k) :
    (process_event_data tbl (event :: es)).1 =
      (process_event_data (processEvent tbl event) es).1 ∧
    event ∈ (process_event_data tbl (event :: es)).2 ∧
    (getEntry (processEvent tbl event) k).counters = (getEntry tbl k).counters := by
  refine ⟨rfl, ?_, ?_⟩
  · simp [process_event_data, herr]
  · rw [processEvent_counters, deltas_untouched _ _ hk, addC_zeroC]

/-- Concrete check of C6 on the malformed Shot record. -/
theorem malformed_record_recovered_witness :
    (processEventE [] evShotBad).2 = true ∧
    touchedPid evShotBad ≠ some (JVal.num 99) ∧
    evShotBad ∈ (process_event_data [] [evShotBad]).2 ∧
    (getEntry (processEvent [] evShotBad) (JVal.num 99)).counters =
      (getEntry [] (JVal.num 99)).counters :=
  ⟨by decide, by decide,
   (malformed_record_recovered [] evShotBad [] (JVal.num 99) (by decide)
      (by decide)).2.1,
   (malformed_record_recovered [] evShotBad [] (JVal.num 99) (by decide)
      (by decide)).2.2⟩

/-- Claim C7: every counter of every entry starts at 0 (the defaultdict
default) and is non-decreasing across each processed record (counters are
naturals, so non-negativity is by construction). -/
theorem counters_start_zero_and_monotone (tbl : Table) (event k : JVal) :
    ((getEntry ([] : Table) k).goals = 0 ∧ (getEntry ([] : Table) k).assists = 0 ∧
     (getEntry ([] : Table) k).shots = 0 ∧
     (getEntry ([] : Table) k).shots_on_target = 0 ∧
     (getEntry ([] : Table) k).dribbles_completed = 0 ∧
     (getEntry ([] : Table) k).key_passes = 0 ∧
     (getEntry ([] : Table) k).crosses = 0) ∧
    ((getEntry tbl k).goals ≤ (getEntry (processEvent tbl event) k).goals ∧
     (getEntry tbl k).assists ≤ (getEntry (processEvent tbl event) k).assists ∧
     (getEntry tbl k).shots ≤ (getEntry (processEvent tbl event) k).shots ∧
     (getEntry tbl k).shots_on_target ≤
       (getEntry (processEvent tbl event) k).shots_on_target ∧
     (getEntry tbl k).dribbles_completed ≤
       (getEntry (processEvent tbl event) k).dribbles_completed ∧
     (getEntry tbl k).key_passes ≤ (getEntry (processEvent tbl event) k).key_passes ∧
     (getEntry tbl k).crosses ≤ (getEntry (processEvent tbl event) k).crosses) := by
  have hc := processEvent_counters tbl event k
  constructor
  · exact ⟨rfl, rfl, rfl, rfl, rfl, rfl, rfl⟩
  · refine ⟨?_, ?_, ?_, ?_, ?_, ?_, ?_⟩
    · have h1 := congrArg Counters.goals hc
      simp only [Metrics.counters, addC] at h1
      omega
    · have h1 := congrArg Counters.assists hc
      simp only [Metrics.counters, addC] at h1
      omega
    · have h1 := congrArg Counters.shots hc
      simp only [Metrics.counters, addC] at h1
      omega
    · have h1 := congrArg Counters.shots_on_target hc
      simp only [Metrics.counters, addC] at h1
      omega
    · have h1 := congrArg Counters.dribbles_completed hc
      simp only [Metrics.counters, addC] at h1
      omega
    · have h1 := congrArg Counters.key_passes hc
      simp only [Metrics.counters, addC] at h1
      omega
    · have h1 := congrArg Counters.crosses hc
      simp only [Metrics.counters, addC] at h1
      omega

/-- Claim C8: a present-but-falsy `player.id` (0, empty string, ...) is
treated exactly like an absent one: the record is skipped without
mutating or raising, and a falsy key never receives an entry. -/
theorem falsy_player_id_skipped (tbl : Table) (event pid : JVal) (es : List JVal)
    (h1 : playerIdOf event = some pid) (h2 : truthy pid = false) :
    processEventE tbl event = (tbl, false) ∧
    (lookupEntry tbl pid = none → lookupEntry (processEvents tbl es) pid = none) := by
  refine ⟨processEventE_skip tbl event pid h1 h2, ?_⟩
  intro h0
  rw [lookupEntry_processEvents_untruthy tbl es pid h2]
  exact h0

/-- Concrete check of C8 on the id-0 Shot event. -/
theorem falsy_player_id_skipped_witness :
    playerIdOf evZeroId = some (JVal.num 0) ∧ truthy (JVal.num 0) = false ∧
    processEventE [] evZeroId = ([], false) :=
  ⟨by decide, by decide,
   (falsy_player_id_skipped [] evZeroId (JVal.num 0) [] (by decide) (by decide)).1⟩

/-- Claim C9: when a Shot record raises after `shots` was incremented
(outcome chain fails on a non-dictionary payload), the increment is kept:
the handler reports and continues without undoing it, and `goals` /
`shots_on_target` stay unchanged. -/
theorem partial_increments_retained_on_error (tbl : Table) (event pid : JVal)
    (hty : eventType event = some (JVal.str ("Shot")))
    (hpid : touchedPid event = some pid)
    (hout : shotOutcome event = none) :
    (getEntry (processEvent tbl event) pid).shots = (getEntry tbl pid).shots + 1 ∧
    (getEntry (processEvent tbl event) pid).goals = (getEntry tbl pid).goals ∧
    (getEntry (processEvent tbl event) pid).shots_on_target =
      (getEntry tbl pid).shots_on_target ∧
    (processEventE tbl event).2 = true := by
  have hc := processEvent_counters tbl event pid
  have hd : deltas event pid = shotDelta event := by
    simp [deltas, hty, hpid, eventDelta, addC_zeroC]
  rw [hd] at hc
  simp only [shotDelta, hout] at hc
  refine ⟨?_, ?_, ?_, processEventE_shot_err tbl event pid hty hpid hout⟩
  · have h1 := congrArg Counters.shots hc
    simpa [Metrics.counters, addC] using h1
  · have h1 := congrArg Counters.goals hc
    simpa [Metrics.counters, addC] using h1
  · have h1 := congrArg Counters.shots_on_target hc
    simpa [Metrics.counters, addC] using h1

/-- Concrete check of C9 on the malformed Shot record. -/
theorem partial_increments_retained_on_error_witness :
    eventType evShotBad = some (JVal.str ("Shot")) ∧
    touchedPid evShotBad = some (JVal.num 3) ∧
    shotOutcome evShotBad = none ∧
    (getEntry (processEvent [] evShotBad) (JVal.num 3)).shots =
      (getEntry [] (JVal.num 3)).shots + 1 ∧
    (processEventE [] evShotBad).2 = true :=
  ⟨by decide, by decide, by decide,
   (partial_increments_retained_on_error [] evShotBad (JVal.num 3) (by decide)
      (by decide) (by decide)).1,
   (partial_increments_retained_on_error [] evShotBad (JVal.num 3) (by decide)
      (by decide) (by decide)).2.2.2⟩

/-- Claim C10: aggregation accumulates into the same table — processing
sequences one by one equals processing their concatenation; processing
the same sequence twice from the initial empty table doubles every
counter; in particular aggregation is not idempotent (checked on a
concrete event). -/
theorem aggregation_accumulates_not_idempotent :
    (∀ (tbl : Table) (es1 es2 : List JVal),
        processEvents tbl (es1 ++ es2) = processEvents (processEvents tbl es1) es2) ∧
    (∀ (es : List JVal) (k : JVal),
        (getEntry (processEvents (processEvents [] es) es) k).counters =
          addC (getEntry (processEvents [] es) k).counters
               (getEntry (processEvents [] es) k).counters) ∧
    processEvents (processEvents [] [evShotGoal]) [evShotGoal] ≠
      processEvents [] [evShotGoal] := by
  refine ⟨?_, ?_, ?_⟩
  · intro tbl es1 es2
    simp [processEvents, List.foldl_append]
  · intro es k
    have h1 := processEvents_counters (processEvents [] es) es k
    have h2 := processEvents_counters [] es k
    have hbase : (getEntry ([] : Table) k).counters = zeroC := rfl
    rw [hbase] at h2
    rw [h1, foldl_addC_shift, ← h2]
  · decide
